import Mathlib

/-!
Verification of the Programmers job-posting crawler (`wanted.py`).

The crawler's data is parsed JSON; we embed Python values coming out of
`json.loads` as the inductive type `Json` (numbers are modelled as integers).
Operations that the Python code performs on such values (dictionary `.get`,
iteration, `str(...)`, truthiness) are modelled explicitly, and a Python
exception escaping a region of code is modelled by `Option.none`.
-/

inductive Json where
  | null : Json
  | bool (b : Bool) : Json
  | num (n : Int) : Json
  | str (s : String) : Json
  | arr (elems : List Json) : Json
  | obj (fields : List (String × Json)) : Json
deriving Repr

/-- Dictionary lookup: Python dict keys are unique, so first match suffices. -/
def lookupField : List (String × Json) → String → Option Json
  | [], _ => none
  | (k, v) :: fs, key => if k = key then some v else lookupField fs key

/-- Python `d.get(key, dflt)`: the default is used only when the key is absent
(a present key mapping to `null` is returned as `null`). -/
def jget (fs : List (String × Json)) (key : String) (dflt : Json) : Json :=
  (lookupField fs key).getD dflt

/-- Python `v is None`. -/
def Json.isNull : Json → Bool
  | Json.null => true
  | _ => false

/-- Python truthiness of a parsed-JSON value. -/
def truthy : Json → Bool
  | Json.null => false
  | Json.bool b => b
  | Json.num n => n ≠ 0
  | Json.str s => s ≠ ""
  | Json.arr [] => false
  | Json.arr (_ :: _) => true
  | Json.obj [] => false
  | Json.obj (_ :: _) => true

/-- Python iteration `for x in v`: arrays yield elements, strings yield
one-character strings, dicts yield their keys; `null`, booleans and numbers
raise `TypeError` (modelled as `none`). -/
def toIterList : Json → Option (List Json)
  | Json.arr xs => some xs
  | Json.str s => some (s.data.map (fun c => Json.str (String.mk [c])))
  | Json.obj fs => some (fs.map (fun kv => Json.str kv.1))
  | _ => none

mutual

/-- Python `repr` of a parsed-JSON value (escape handling inside nested
strings is not modelled; the crawler never takes `str` of a container
holding quote characters). -/
def pyrepr : Json → String
  | Json.null => "None"
  | Json.bool true => "True"
  | Json.bool false => "False"
  | Json.num n => toString n
  | Json.str s => "\x27" ++ s ++ "\x27"
  | Json.arr xs => "[" ++ pyreprList xs ++ "]"
  | Json.obj fs => "\x7b" ++ pyreprFields fs ++ "\x7d"

/-- Comma-separated `repr`s of the elements of a Python list. -/
def pyreprList : List Json → String
  | [] => ""
  | [x] => pyrepr x
  | x :: y :: xs => pyrepr x ++ ", " ++ pyreprList (y :: xs)

/-- Comma-separated `repr`s of the entries of a Python dict. -/
def pyreprFields : List (String × Json) → String
  | [] => ""
  | [kv] => "\x27" ++ kv.1 ++ "\x27: " ++ pyrepr kv.2
  | kv :: kw :: fs =>
      "\x27" ++ kv.1 ++ "\x27: " ++ pyrepr kv.2 ++ ", " ++ pyreprFields (kw :: fs)

end

/-- Python `str(v)` for a parsed-JSON value. -/
def pystr : Json → String
  | Json.str s => s
  | v => pyrepr v

/-- Whitespace stripped by Python `str.strip()` (ASCII part; exotic Unicode
space characters are not modelled, the crawler's data never contains them). -/
def pyIsSpace (c : Char) : Bool :=
  c = ' ' || c = '\t' || c = '\n' || c = '\r' || c = '\x0b' || c = '\x0c'

/-- Python `s.strip()`. -/
def pystrip (s : String) : String :=
  String.mk (((s.data.dropWhile pyIsSpace).reverse.dropWhile pyIsSpace).reverse)

/-- One pass of Python `s.replace("• ", "")`: leftmost, non-overlapping,
scanning resumes after each removal. -/
def removeBulletSpace : List Char → List Char
  | [] => []
  | '•' :: ' ' :: rest => removeBulletSpace rest
  | c :: rest => c :: removeBulletSpace rest

/-- One pass of Python `s.replace("•", "")`. -/
def removeBullet : List Char → List Char
  | [] => []
  | '•' :: rest => removeBullet rest
  | c :: rest => c :: removeBullet rest

/-- Python `text.replace("• ", "").replace("•", "")` from `safe_split`. -/
def removeBullets (s : String) : String :=
  String.mk (removeBullet (removeBulletSpace s.data))

/-- Python `s.split(sep)` for a non-empty separator, fuelled by the length of
the scanned suffix (the fuel in `pysplit` always suffices).  Keeps empty
pieces, exactly like Python `str.split` with an explicit separator. -/
def pysplitGo (sep : List Char) : Nat → List Char → List Char → List (List Char)
  | 0, s, acc => [acc.reverse ++ s]
  | fuel + 1, s, acc =>
    match s with
    | [] => [acc.reverse]
    | c :: rest =>
        if sep.isPrefixOf (c :: rest) then
          acc.reverse :: pysplitGo sep fuel ((c :: rest).drop sep.length) []
        else
          pysplitGo sep fuel rest (c :: acc)

/-- Python `s.split(sep)`.  (Python raises `ValueError` on an empty separator;
the crawler only ever splits on the default `"\n"`, so that case is mapped to
the whole string.) -/
def pysplit (sep : String) (s : String) : List String :=
  match sep.data with
  | [] => [s]
  | c :: cs => (pysplitGo (c :: cs) (s.length + 1) s.data []).map String.mk

/-- `safe_get` (wanted.py lines 22-30), inner loop: `result = result[key]`
over the keys; `KeyError`/`TypeError` (missing key, non-dict step) is `none`.
String keys never index arrays or strings in Python, both raise `TypeError`,
hence every non-dict intermediate value stops the walk. -/
def safeGetGo : Json → List String → Option Json
  | v, [] => some v
  | v, k :: ks =>
    match v with
    | Json.obj fs =>
        match lookupField fs k with
        | some w => safeGetGo w ks
        | none => none
    | _ => none

/-- `safe_get(data, keys, default)` (wanted.py lines 22-30): the walk under
`try`, then `result if result is not None else default`; any caught exception
yields the default. -/
def safe_get (data : Json) (keys : List String) (dflt : Json) : Json :=
  match safeGetGo data keys with
  | some r => if r.isNull then dflt else r
  | none => dflt

/-- Modelled from the spec's words for `extract` (§4.1): walks the path one
key at a time; returns the default when any segment of the path is absent,
null, or non-traversable, and the exact terminal value when the full path
resolves to a non-null value. -/
def extractSpec : Json → List String → Json → Json
  | v, [], dflt => if v.isNull then dflt else v
  | v, k :: ks, dflt =>
    match v with
    | Json.obj fs =>
        match lookupField fs k with
        | some w => extractSpec w ks dflt
        | none => dflt
    | _ => dflt

/-- `safe_split(text, delimiter="\n")` (wanted.py lines 32-36):
`if not text: return []`, then the comprehension
`[item.strip() for item in text.replace("• ", "").replace("•", "").split(delimiter) if item.strip()]`. -/
def safe_split (text : Option String) (delimiter : String) : List String :=
  match text with
  | none => []
  | some s =>
    if s = "" then []
    else
      (pysplit delimiter (removeBullets s)).filterMap
        (fun item => if pystrip item = "" then none else some (pystrip item))

/-- Modelled from the claim's words for `split_lines`: removes a single
leading `"• "` or `"•"` bullet marker, splits on the delimiter, trims each
piece, drops empty pieces, preserving order. -/
def split_lines_claim (text : Option String) (delimiter : String) : List String :=
  match text with
  | none => []
  | some s =>
    if s = "" then []
    else
      let cs := s.data
      let cs2 :=
        if ['•', ' '].isPrefixOf cs then cs.drop 2
        else if cs.head? = some '•' then cs.drop 1
        else cs
      ((pysplit delimiter (String.mk cs2)).map pystrip).filter (fun p => p ≠ "")

/-- The amended description of `safe_split`: removes every occurrence of
`"• "` and then of `"•"` throughout the text, splits on the delimiter, trims
each piece, drops empty pieces, preserving order. -/
def split_lines_amended (s : String) (delimiter : String) : List String :=
  ((pysplit delimiter (removeBullets s)).map pystrip).filter (fun p => p ≠ "")

/-- Outcome of one HTTP request: `failure` is any `requests.exceptions.
RequestException` (transport error, bad HTTP status from `raise_for_status`,
JSON decode error); `success` carries the parsed JSON body. -/
inductive FetchResult where
  | failure : FetchResult
  | success (body : Json) : FetchResult

/-- Option-valued map over a list, modelling a Python list comprehension that
may raise while processing an element (left to right, first raise aborts). -/
def omap (f : α → Option β) : List α → Option (List β)
  | [] => some []
  | x :: xs =>
    match f x with
    | some y => (omap f xs).map (fun ys => y :: ys)
    | none => none

/-- Body of the comprehension
`[str(item.get('id')) for item in ... if item.get('id')]` (wanted.py line
48) for one entry: the guard is Python truthiness of `item.get('id')`; a
non-dict entry raises `AttributeError` on `.get` (`none`). -/
def listingEntryIds : Json → Option (List String)
  | Json.obj ifs =>
      some (if truthy (jget ifs "id" Json.null)
            then [pystr (jget ifs "id" Json.null)] else [])
  | _ => none

/-- `get_job_list` (wanted.py lines 38-58).  `none` models an exception
escaping the function: only `RequestException` is caught there, so
`data.get` on a non-dict body or `item.get` on a non-dict entry
(`AttributeError`) propagates.  A caught failure returns `[]`, as does the
`if not job_ids` branch. -/
def get_job_list (resp : FetchResult) : Option (List String) :=
  match resp with
  | FetchResult.failure => some []
  | FetchResult.success data =>
    match data with
    | Json.obj dfs =>
      match toIterList (jget dfs "jobPositions" (Json.arr [])) with
      | none => none
      | some items => (omap listingEntryIds items).map List.flatten
    | _ => none

/-- Modelled from the claim's words for the listing extraction: the string
form of the identifier of every entry whose `id` field is non-null, entries
without an `id` silently skipped. -/
def claimListingIds (items : List Json) : List String :=
  items.filterMap (fun item =>
    match item with
    | Json.obj ifs =>
        match lookupField ifs "id" with
        | some v => if v.isNull then none else some (pystr v)
        | none => none
    | _ => none)

/-- The amended listing extraction: the string form of the identifier of
every entry whose `id` field is present and truthy; entries with an absent
or falsy (`null`, `0`, `""`, `false`) identifier are silently skipped. -/
def amendedListingIds (items : List Json) : List String :=
  items.filterMap (fun item =>
    match item with
    | Json.obj ifs =>
        if truthy (jget ifs "id" Json.null)
        then some (pystr (jget ifs "id" Json.null)) else none
    | _ => none)

/-- The normalized output record built by `get_job_detail` (wanted.py lines
81-94).  Fields read with a plain `.get` keep whatever Python value the
source held, hence type `Json`; fields built through `safe_split` or a
string-building comprehension are lists. -/
structure JobDetail where
  title : Json
  intro : Json
  category : List String
  comp_name : Json
  comp_addr : Json
  role : List String
  requirement : List String
  preferred : List String
  due : Json
  tech_stack : List Json
  welfare : List String
  procedure : Json
deriving Repr

/-- `tag.get('name', '')` (wanted.py line 75); a non-dict tag raises
`AttributeError`, caught only by the function-level broad `except`. -/
def tagName : Json → Option Json
  | Json.obj tfs => some (jget tfs "name" (Json.str ""))
  | _ => none

/-- `self.safe_split(v)` applied to a Python value taken from parsed JSON:
a falsy value returns `[]` through `if not text`; a truthy string is split;
`.replace` on any other truthy value raises `AttributeError` (`none`). -/
def safeSplitJson (v : Json) : Option (List String) :=
  if truthy v then
    match v with
    | Json.str s => some (safe_split (some s) "\n")
    | _ => none
  else some []

/-- `get_job_detail` (wanted.py lines 60-103).  `none` models both a caught
`RequestException` and the broad `except Exception` around the record
construction; `some` is a returned record. -/
def get_job_detail (resp : FetchResult) : Option JobDetail :=
  match resp with
  | FetchResult.failure => none
  | FetchResult.success data =>
    match data with
    | Json.obj dfs =>
      match jget dfs "jobPosition" (Json.obj []) with
      | Json.obj jp =>
        match toIterList (jget jp "jobCategoryIds" (Json.arr [])) with
        | none => none
        | some catElems =>
        match toIterList (jget jp "technicalTags" (Json.arr [])) with
        | none => none
        | some tagElems =>
        match omap tagName tagElems with
        | none => none
        | some tech_stacks =>
        match safeSplitJson (jget jp "description" (Json.str "")) with
        | none => none
        | some descLines =>
        match safeSplitJson (jget jp "preferredExperience" Json.null) with
        | none => none
        | some prefLines =>
        match safeSplitJson (jget jp "additionalInformation" Json.null) with
        | none => none
        | some welfLines =>
          some {
            title := jget jp "title" (Json.str "제목 없음")
            intro := jget jp "description" (Json.str "소개 없음")
            category := if (catElems.map pystr).isEmpty
                        then ["카테고리 없음"] else catElems.map pystr
            comp_name := safe_get (Json.obj jp) ["company", "name"]
                           (Json.str "회사명 없음")
            comp_addr := jget jp "address" (Json.str "주소 없음")
            role := if descLines.isEmpty then ["역할 정보 없음"] else descLines
            requirement := if descLines.isEmpty
                           then ["자격요건 없음"] else descLines
            preferred := if prefLines.isEmpty
                         then ["우대사항 없음"] else prefLines
            due := jget jp "endAt" (Json.str "마감일 미정")
            tech_stack := if tech_stacks.isEmpty
                          then [Json.str "기술 스택 없음"] else tech_stacks
            welfare := if welfLines.isEmpty
                       then ["복지 정보 없음"] else welfLines
            procedure := jget jp "additionalInformation"
                           (Json.str "채용 절차 미정") }
      | _ => none
    | _ => none

/-- Adding one element to the identifier set (`self.job_ids` is a Python
`set`; we model it as a duplicate-free list in insertion order). -/
def setInsert (s : List String) (x : String) : List String :=
  if x ∈ s then s else s ++ [x]

/-- `self.job_ids.update(new_ids)` (wanted.py line 116). -/
def setUpdate (s : List String) (xs : List String) : List String :=
  xs.foldl setInsert s

/-- Discovery loop of `crawl` (wanted.py lines 109-118): `listFetch p` is the
value returned by `get_job_list(page=p)`; returns the accumulated identifier
set and the list of pages actually requested, in request order.  The loop
runs `page` from `p` for at most `n` more pages and breaks at the first
empty result. -/
def discoverAux (listFetch : Nat → List String) :
    Nat → Nat → List String → List String × List Nat
  | 0, _, acc => (acc, [])
  | n + 1, p, acc =>
    let ids := listFetch p
    if ids.isEmpty then (acc, [p])
    else
      let r := discoverAux listFetch n (p + 1) (setUpdate acc ids)
      (r.1, p :: r.2)

/-- Identifier set accumulated by the discovery phase with page cap `cap`
(the source's `max_pages`, default 10), pages starting at 1. -/
def discoveredIds (listFetch : Nat → List String) (cap : Nat) : List String :=
  (discoverAux listFetch cap 1 []).1

/-- Pages requested by the discovery phase, in request order. -/
def requestedPages (listFetch : Nat → List String) (cap : Nat) : List Nat :=
  (discoverAux listFetch cap 1 []).2

/-- Enrichment loop of `crawl` (wanted.py lines 120-124): `detailFetch i` is
the value returned by `get_job_detail(i)`.  Returns the collected results and
the list of identifiers for which a detail fetch was issued, in order. -/
def enrichAux (detailFetch : String → Option JobDetail) :
    List String → List JobDetail × List String
  | [] => ([], [])
  | i :: is =>
    let r := enrichAux detailFetch is
    match detailFetch i with
    | some jd => (jd :: r.1, i :: r.2)
    | none => (r.1, i :: r.2)

/-- `crawl(max_pages)` (wanted.py lines 105-126): discovery then enrichment;
returns the identifier set and the collected records. -/
def crawl (listFetch : Nat → List String) (detailFetch : String → Option JobDetail)
    (max_pages : Nat) : List String × List JobDetail :=
  let ids := discoveredIds listFetch max_pages
  (ids, (enrichAux detailFetch ids).1)

/-- Column order of the exported file: insertion order of the record dict. -/
def csvHeader : List String :=
  ["title", "intro", "category", "comp_name", "comp_addr", "role",
   "requirement", "preferred", "due", "tech_stack", "welfare", "procedure"]

/-- How pandas `to_csv` renders a scalar cell: `None` becomes an empty cell,
anything else its `str` form. -/
def renderCell : Json → String
  | Json.null => ""
  | Json.str s => s
  | v => pystr v

/-- `'|'.join` over the tech-stack column: every element must be a Python
string, otherwise `TypeError` is raised (caught by `save_to_csv`, which then
writes nothing). -/
def strCell : Json → Option String
  | Json.str s => some s
  | _ => none

/-- `save_to_csv` (wanted.py lines 128-148), modelled down to the rows of the
written file (CSV quoting and the UTF-8 signature round-trip through the csv
layer and are not modelled).  `none` means no file is written: either the
empty-results early return, or the caught exception from `'|'.join` meeting a
non-string element. -/
def save_to_csv (results : List JobDetail) : Option (List (List String)) :=
  if results.isEmpty then none
  else
    (omap (fun r =>
      (r.tech_stack |> omap strCell).map (fun ts =>
        [renderCell r.title, renderCell r.intro,
         String.intercalate "|" r.category, renderCell r.comp_name,
         renderCell r.comp_addr, String.intercalate "|" r.role,
         String.intercalate "|" r.requirement, String.intercalate "|" r.preferred,
         renderCell r.due, String.intercalate "|" ts,
         String.intercalate "|" r.welfare, renderCell r.procedure]))
      results).map (fun rows => csvHeader :: rows)

/-- The row `save_to_csv` writes for a record whose tech-stack elements are
all strings: every sequence-valued field joined with `"|"`. -/
def csvRowOf (r : JobDetail) : List String :=
  [renderCell r.title, renderCell r.intro,
   String.intercalate "|" r.category, renderCell r.comp_name,
   renderCell r.comp_addr, String.intercalate "|" r.role,
   String.intercalate "|" r.requirement, String.intercalate "|" r.preferred,
   renderCell r.due,
   String.intercalate "|" (r.tech_stack.map (fun v => (strCell v).getD "")),
   String.intercalate "|" r.welfare, renderCell r.procedure]

lemma filterMap_strip_eq (l : List String) :
    l.filterMap (fun item => if pystrip item = "" then none else some (pystrip item))
      = (l.map pystrip).filter (fun p => p ≠ "") := by
  induction l with
  | nil => rfl
  | cons x xs ih =>
      by_cases hx : pystrip x = "" <;>
        simp [List.filterMap_cons, List.filter_cons, hx, ih]

/-- C1: `safe_get` agrees with the spec's `extract` on every nested mapping,
every key path and every default: the default is returned when any segment of
the path is absent, null, or non-traversable, the exact terminal value when
the full path resolves to a non-null value; as a total Lean function it
raises nothing. -/
theorem safe_get_meets_extract_spec :
    ∀ (data : Json) (keys : List String) (dflt : Json),
      safe_get data keys dflt = extractSpec data keys dflt := by
  intro data keys dflt
  induction keys generalizing data with
  | nil => cases data <;> rfl
  | cons k ks ih =>
      cases data with
      | obj fs =>
          cases h : lookupField fs k with
          | none => simp [safe_get, safeGetGo, extractSpec, h]
          | some w =>
              simp only [safe_get, safeGetGo, extractSpec, h]
              exact ih w
      | null => rfl
      | bool b => rfl
      | num n => rfl
      | str s => rfl
      | arr xs => rfl

/-- C3 counterexample: the claim says only a leading bullet marker is
removed, but `safe_split` removes the marker everywhere in the text:
on `"a • b"` the code yields `["a b"]` while the claimed behaviour keeps
the inner bullet, yielding `["a • b"]`. -/
theorem safe_split_leading_bullet_cex :
    safe_split (some "a • b") "\n" = ["a b"]
      ∧ split_lines_claim (some "a • b") "\n" = ["a • b"]
      ∧ safe_split (some "a • b") "\n" ≠ split_lines_claim (some "a • b") "\n" := by
  refine ⟨by decide, by decide, by decide⟩

/-- C3 amended: `safe_split` returns `[]` for null or empty input; otherwise
it removes every occurrence of `"• "` and then `"•"` throughout the text (not
only a leading one), splits on the delimiter, trims whitespace from each
piece, drops empty pieces and preserves order; in particular
`safe_split "• a\n• b"` is `["a", "b"]`. -/
theorem safe_split_amended_spec :
    (∀ d, safe_split none d = [] ∧ safe_split (some "") d = [])
      ∧ (∀ t d, safe_split (some t) d = split_lines_amended t d)
      ∧ safe_split (some "• a\n• b") "\n" = ["a", "b"] := by
  refine ⟨fun d => ⟨rfl, rfl⟩, fun t d => ?_, by decide⟩
  by_cases ht : t = ""
  · subst ht
    have hrb : removeBullets "" = "" := rfl
    simp only [safe_split, split_lines_amended, if_pos rfl, hrb]
    cases hd : d.data with
    | nil => simp [pysplit, hd, pystrip]
    | cons c cs => simp [pysplit, hd, pysplitGo, pystrip]
  · simp only [safe_split, split_lines_amended, if_neg ht]
    exact filterMap_strip_eq _

/-- A listing body with one falsy identifier (`0`) and a duplicated one. -/
def cexListingEntries : List Json :=
  [Json.obj [("id", Json.num 0)], Json.obj [("id", Json.num 7)],
   Json.obj [("id", Json.num 7)]]

/-- The listing response wrapping `cexListingEntries`. -/
def cexListingBody : Json := Json.obj [("jobPositions", Json.arr cexListingEntries)]

lemma omap_listing_entries (entries : List Json)
    (h : ∀ e ∈ entries, ∃ efs, e = Json.obj efs) :
    (omap listingEntryIds entries).map List.flatten
      = some (amendedListingIds entries) := by
  induction entries with
  | nil => rfl
  | cons e es ih =>
      obtain ⟨efs, rfl⟩ := h e (List.mem_cons_self e es)
      have ih2 := ih (fun x hx => h x (List.mem_cons_of_mem _ hx))
      have key : omap listingEntryIds (Json.obj efs :: es)
          = (omap listingEntryIds es).map
              (fun ys => (if truthy (jget efs "id" Json.null)
                          then [pystr (jget efs "id" Json.null)] else []) :: ys) := rfl
      rw [key]
      cases hrec : omap listingEntryIds es with
      | none => rw [hrec] at ih2; simp at ih2
      | some ys =>
          rw [hrec] at ih2
          simp only [Option.map_some', Option.some.injEq] at ih2
          cases hif : truthy (jget efs "id" Json.null) <;>
            simp [amendedListingIds, List.filterMap_cons, listingEntryIds, hif, ih2]

/-- C5 counterexample: an entry whose identifier is the non-null number `0`
is skipped (Python truthiness, not a null test), and a duplicated identifier
is emitted twice, so the output is neither the claimed extraction nor
duplicate-free. -/
theorem get_job_list_nonnull_unique_cex :
    get_job_list (FetchResult.success cexListingBody) = some ["7", "7"]
      ∧ claimListingIds cexListingEntries = ["0", "7", "7"]
      ∧ get_job_list (FetchResult.success cexListingBody)
          ≠ some (claimListingIds cexListingEntries)
      ∧ ¬ (["7", "7"] : List String).Nodup := by
  refine ⟨by decide, by decide, ?_, by decide⟩
  intro h
  have h1 : get_job_list (FetchResult.success cexListingBody) = some ["7", "7"] := by decide
  have h2 : claimListingIds cexListingEntries = ["0", "7", "7"] := by decide
  rw [h1, h2] at h
  simp at h

/-- C5 amended: on a successful response whose top-level listing array holds
mapping entries, `get_job_list` returns, in order and possibly with
duplicates, the string form of the identifier of every entry whose `id` is
present and truthy; entries with an absent or falsy identifier (null, `0`,
`""`, `false`) are silently skipped; on any transport-level or HTTP-status
failure it returns an empty sequence. -/
theorem get_job_list_amended (dfs : List (String × Json)) (entries : List Json)
    (h1 : jget dfs "jobPositions" (Json.arr []) = Json.arr entries)
    (h2 : ∀ e ∈ entries, ∃ efs, e = Json.obj efs) :
    get_job_list (FetchResult.success (Json.obj dfs))
        = some (amendedListingIds entries)
      ∧ get_job_list FetchResult.failure = some [] := by
  constructor
  · simp only [get_job_list, h1, toIterList]
    exact omap_listing_entries entries h2
  · rfl

/-- C5 witness: a one-entry listing page with a truthy numeric identifier. -/
theorem get_job_list_amended_witness :
    get_job_list (FetchResult.success
        (Json.obj [("jobPositions", Json.arr [Json.obj [("id", Json.num 5)]])]))
      = some ["5"] := by
  have h := get_job_list_amended
    [("jobPositions", Json.arr [Json.obj [("id", Json.num 5)]])]
    [Json.obj [("id", Json.num 5)]] rfl
    (by intro e he; simp only [List.mem_singleton] at he; exact ⟨_, he⟩)
  exact h.1.trans (by decide)

lemma list_isEmpty_false {α : Type} {l : List α} (h : l ≠ []) : l.isEmpty = false := by
  cases l with
  | nil => exact absurd rfl h
  | cons a t => rfl

lemma discoverAux_pages_full (f : Nat → List String) :
    ∀ (n p : Nat) (acc : List String),
      (∀ q, p ≤ q → q < p + n → f q ≠ []) →
      (discoverAux f n p acc).2 = List.range' p n := by
  intro n
  induction n with
  | zero => intro p acc _; rfl
  | succ n ih =>
      intro p acc h
      have hp : (f p).isEmpty = false := list_isEmpty_false (h p le_rfl (by omega))
      simp only [discoverAux, hp, Bool.false_eq_true, if_false]
      rw [ih (p + 1) _ (fun q hq1 hq2 => h q (by omega) (by omega))]
      simp [List.range']

lemma discoverAux_pages_stop (f : Nat → List String) :
    ∀ (n p : Nat) (acc : List String) (p0 : Nat),
      p ≤ p0 → p0 < p + n → f p0 = [] →
      (∀ q, p ≤ q → q < p0 → f q ≠ []) →
      (discoverAux f n p acc).2 = List.range' p (p0 + 1 - p) := by
  intro n
  induction n with
  | zero => intro p acc p0 h1 h2 _ _; exact absurd h2 (by omega)
  | succ n ih =>
      intro p acc p0 h1 h2 h3 h4
      by_cases hpp : p = p0
      · subst hpp
        have he : (f p).isEmpty = true := by rw [h3]; rfl
        have h5 : p + 1 - p = 1 := by omega
        simp only [discoverAux, he, if_true, h5]
        simp [List.range']
      · have hlt : p < p0 := lt_of_le_of_ne h1 hpp
        have hp : (f p).isEmpty = false := list_isEmpty_false (h4 p le_rfl hlt)
        simp only [discoverAux, hp, Bool.false_eq_true, if_false]
        rw [ih (p + 1) _ p0 (by omega) (by omega) h3 (fun q hq1 hq2 => h4 q (by omega) hq2)]
        have h6 : p0 + 1 - p = (p0 + 1 - (p + 1)) + 1 := by omega
        rw [h6]
        simp [List.range']

/-- C6: during discovery, the first page whose identifier sequence is empty
terminates the loop at once — no later page is requested even below the cap;
when no page up to the cap is empty, pages 1 through the cap are requested in
increasing order. -/
theorem crawl_discovery_stops_at_first_empty :
    (∀ (f : Nat → List String) (cap p0 : Nat),
        1 ≤ p0 → p0 ≤ cap → f p0 = [] →
        (∀ q, 1 ≤ q → q < p0 → f q ≠ []) →
        requestedPages f cap = List.range' 1 p0)
      ∧ (∀ (f : Nat → List String) (cap : Nat),
        (∀ q, 1 ≤ q → q ≤ cap → f q ≠ []) →
        requestedPages f cap = List.range' 1 cap) := by
  constructor
  · intro f cap p0 h1 h2 h3 h4
    have h := discoverAux_pages_stop f cap 1 [] p0 h1 (by omega) h3 h4
    have e : p0 + 1 - 1 = p0 := by omega
    rw [e] at h
    exact h
  · intro f cap h
    exact discoverAux_pages_full f cap 1 [] (fun q hq1 hq2 => h q hq1 (by omega))

/-- A listing oracle with pages 1 and 2 non-empty and page 3 empty. -/
def pagesUntilThree : Nat → List String := fun p => if p < 3 then ["9"] else []

/-- C6 witness: with cap 10 and page 3 empty, exactly pages 1, 2, 3 are
requested; with no empty page and cap 4, pages 1 through 4 are requested. -/
theorem crawl_discovery_stops_witness :
    requestedPages pagesUntilThree 10 = [1, 2, 3]
      ∧ requestedPages (fun _ => ["9"]) 4 = [1, 2, 3, 4] := by
  constructor
  · have h := crawl_discovery_stops_at_first_empty.1 pagesUntilThree 10 3
      (by omega) (by omega) (by decide)
      (by intro q hq1 hq2
          simp only [pagesUntilThree]
          rw [if_pos hq2]
          simp)
    exact h.trans (by decide)
  · have h := crawl_discovery_stops_at_first_empty.2 (fun _ => ["9"]) 4
      (by intro q hq1 hq2; simp)
    exact h.trans (by decide)

lemma setInsert_nodup {s : List String} {x : String} (h : s.Nodup) :
    (setInsert s x).Nodup := by
  unfold setInsert
  split
  · exact h
  · next hx => exact h.append (List.nodup_singleton x) (List.disjoint_singleton.mpr hx)

lemma setUpdate_nodup : ∀ (xs s : List String), s.Nodup → (setUpdate s xs).Nodup := by
  intro xs
  induction xs with
  | nil => intro s h; exact h
  | cons x xs ih =>
      intro s h
      exact ih _ (setInsert_nodup h)

lemma discoverAux_fst_nodup (f : Nat → List String) :
    ∀ (n p : Nat) (acc : List String), acc.Nodup → (discoverAux f n p acc).1.Nodup := by
  intro n
  induction n with
  | zero => intro p acc h; exact h
  | succ n ih =>
      intro p acc h
      cases hc : (f p).isEmpty with
      | true => simp [discoverAux, hc, h]
      | false =>
          simp only [discoverAux, hc, Bool.false_eq_true, if_false]
          exact ih (p + 1) _ (setUpdate_nodup _ _ h)

/-- C9: after any number of discovery pages, the accumulated identifier
collection is duplicate-free, whatever identifier sequences — including
overlapping ones — the pages return. -/
theorem discovered_ids_nodup :
    ∀ (f : Nat → List String) (cap : Nat), (discoveredIds f cap).Nodup :=
  fun f cap => discoverAux_fst_nodup f cap 1 [] List.nodup_nil

lemma enrichAux_trace (d : String → Option JobDetail) :
    ∀ ids, (enrichAux d ids).2 = ids := by
  intro ids
  induction ids with
  | nil => rfl
  | cons i is ih =>
      simp only [enrichAux]
      cases d i <;> simp [ih]

lemma enrichAux_length (d : String → Option JobDetail) :
    ∀ ids, (enrichAux d ids).1.length
      = (ids.filter (fun i => (d i).isSome)).length := by
  intro ids
  induction ids with
  | nil => rfl
  | cons i is ih =>
      simp only [enrichAux]
      cases hdi : d i <;> simp [List.filter_cons, hdi, ih]

/-- C7: during enrichment, a detail-fetch failure on one identifier never
prevents the rest from being processed — the fetch trace is exactly the
accumulated identifier list, each identifier attempted exactly once — and
the number of collected records equals the number of identifiers whose
detail fetch returned a record. -/
theorem crawl_enrichment_processes_all :
    ∀ (f : Nat → List String) (d : String → Option JobDetail) (cap : Nat),
      (enrichAux d (discoveredIds f cap)).2 = discoveredIds f cap
        ∧ (∀ i ∈ discoveredIds f cap,
            (enrichAux d (discoveredIds f cap)).2.count i = 1)
        ∧ (crawl f d cap).2.length
            = ((discoveredIds f cap).filter (fun i => (d i).isSome)).length := by
  intro f d cap
  refine ⟨enrichAux_trace d _, ?_, enrichAux_length d _⟩
  intro i hi
  rw [enrichAux_trace]
  exact List.count_eq_one_of_mem (discoverAux_fst_nodup f cap 1 [] List.nodup_nil) hi

/-- A fully populated record, used to exercise the pipeline concretely. -/
def exampleDetail : JobDetail where
  title := Json.str "backend engineer"
  intro := Json.str "team intro"
  category := ["515"]
  comp_name := Json.str "acme"
  comp_addr := Json.str "seoul"
  role := ["build services"]
  requirement := ["build services"]
  preferred := ["kubernetes"]
  due := Json.str "2024-12-31"
  tech_stack := [Json.str "Python", Json.str "Go"]
  welfare := ["snacks"]
  procedure := Json.str "screening"

/-- A listing oracle returning two identifiers on page 1 and nothing after. -/
def fetchTwoIds : Nat → List String := fun p => if p = 1 then ["a", "b"] else []

/-- A detail oracle that fails on identifier `"a"` and succeeds on `"b"`. -/
def detailOnlyB : String → Option JobDetail :=
  fun i => if i = "b" then some exampleDetail else none

/-- C7 witness: identifier `"a"` fails, `"b"` is still processed, both are
attempted once, and exactly one record is collected. -/
theorem crawl_enrichment_witness :
    (enrichAux detailOnlyB (discoveredIds fetchTwoIds 10)).2
        = discoveredIds fetchTwoIds 10
      ∧ (enrichAux detailOnlyB (discoveredIds fetchTwoIds 10)).2.count "a" = 1
      ∧ (crawl fetchTwoIds detailOnlyB 10).2.length = 1 := by
  have h := crawl_enrichment_processes_all fetchTwoIds detailOnlyB 10
  exact ⟨h.1, h.2.1 "a" (by decide), h.2.2.trans (by decide)⟩

lemma omap_strCell (xs : List Json) (h : ∀ v ∈ xs, ∃ s, v = Json.str s) :
    omap strCell xs = some (xs.map (fun v => (strCell v).getD "")) := by
  induction xs with
  | nil => rfl
  | cons v vs ih =>
      obtain ⟨s, rfl⟩ := h v (List.mem_cons_self v vs)
      simp only [omap, strCell, List.map_cons]
      rw [ih (fun w hw => h w (List.mem_cons_of_mem _ hw))]
      rfl

lemma omap_csv_rows (results : List JobDetail)
    (h : ∀ r ∈ results, ∀ v ∈ r.tech_stack, ∃ s, v = Json.str s) :
    omap (fun r =>
      (r.tech_stack |> omap strCell).map (fun ts =>
        [renderCell r.title, renderCell r.intro,
         String.intercalate "|" r.category, renderCell r.comp_name,
         renderCell r.comp_addr, String.intercalate "|" r.role,
         String.intercalate "|" r.requirement, String.intercalate "|" r.preferred,
         renderCell r.due, String.intercalate "|" ts,
         String.intercalate "|" r.welfare, renderCell r.procedure]))
      results = some (results.map csvRowOf) := by
  induction results with
  | nil => rfl
  | cons r rs ih =>
      simp only [omap]
      rw [omap_strCell r.tech_stack (h r (List.mem_cons_self r rs))]
      simp only [Option.map_some']
      rw [ih (fun q hq => h q (List.mem_cons_of_mem _ hq))]
      rfl

/-- C8: for every non-empty record collection, `save_to_csv` writes the
header row with the 12 field names followed by exactly one row per record,
with no row-index column (every row has exactly 12 cells) and every
sequence-valued field rendered as its elements joined with `"|"` (visible in
`csvRowOf`). -/
theorem save_to_csv_rows_spec (results : List JobDetail) (hne : results ≠ [])
    (hts : ∀ r ∈ results, ∀ v ∈ r.tech_stack, ∃ s, v = Json.str s) :
    save_to_csv results = some (csvHeader :: results.map csvRowOf)
      ∧ (csvHeader :: results.map csvRowOf).length = results.length + 1
      ∧ (∀ row ∈ csvHeader :: results.map csvRowOf, row.length = 12) := by
  refine ⟨?_, by simp, ?_⟩
  · unfold save_to_csv
    rw [list_isEmpty_false hne]
    simp only [Bool.false_eq_true, if_false]
    rw [omap_csv_rows results hts]
    rfl
  · intro row hrow
    rcases List.mem_cons.mp hrow with h | h
    · subst h; rfl
    · obtain ⟨r, _, rfl⟩ := List.mem_map.mp h
      rfl

/-- C8 witness: one fully populated record; its tech-stack cell is the
`"|"`-join `"Python|Go"`. -/
theorem save_to_csv_rows_witness :
    save_to_csv [exampleDetail] = some (csvHeader :: [exampleDetail].map csvRowOf)
      ∧ (csvHeader :: [exampleDetail].map csvRowOf).length = 2
      ∧ csvRowOf exampleDetail
          = ["backend engineer", "team intro", "515", "acme", "seoul",
             "build services", "build services", "kubernetes", "2024-12-31",
             "Python|Go", "snacks", "screening"] := by
  have h := save_to_csv_rows_spec [exampleDetail] (by simp)
    (by intro r hr v hv
        simp only [List.mem_singleton] at hr
        subst hr
        simp only [exampleDetail, List.mem_cons, List.mem_singleton] at hv
        rcases hv with h | h | h
        · exact ⟨_, h⟩
        · exact ⟨_, h⟩
        · exact absurd h (by simp))
  exact ⟨h.1, h.2.1, by decide⟩

/-- A detail response whose job position carries an explicitly null title. -/
def cexNullTitleBody : Json :=
  Json.obj [("jobPosition", Json.obj [("title", Json.null)])]

/-- C2 counterexample: a present-but-null `title` passes through `.get`
untouched, so the produced record holds a null field — not the fallback and
not non-null; and for an absent `endAt` the fallback is the Korean literal
`"마감일 미정"`, not the table's English `"due date undecided"`. -/
theorem job_record_null_title_cex :
    (get_job_detail (FetchResult.success cexNullTitleBody)).map JobDetail.title
        = some Json.null
      ∧ (get_job_detail (FetchResult.success cexNullTitleBody)).map JobDetail.due
        = some (Json.str "마감일 미정")
      ∧ Json.null ≠ Json.str "no title"
      ∧ Json.str "마감일 미정" ≠ Json.str "due date undecided" := by
  refine ⟨rfl, rfl, by simp, by simp⟩

/-- C2 amended: every record produced by a successful detail fetch has all 12
fields present; each sequence field is a genuine list, falling back to its
Korean singleton literal when the source yields no items; each plain field
read with `.get` equals the raw source value whenever the key is present —
even when that value is null — and its Korean fallback literal exactly when
the key is absent; `comp_name` falls back when `company.name` is absent,
null, or non-traversable. -/
theorem job_record_fallbacks_amended
    (dfs jp : List (String × Json)) (catElems tagElems tech_stacks : List Json)
    (descLines prefLines welfLines : List String)
    (hjp : jget dfs "jobPosition" (Json.obj []) = Json.obj jp)
    (hcat : toIterList (jget jp "jobCategoryIds" (Json.arr [])) = some catElems)
    (htag : toIterList (jget jp "technicalTags" (Json.arr [])) = some tagElems)
    (htech : omap tagName tagElems = some tech_stacks)
    (hdesc : safeSplitJson (jget jp "description" (Json.str "")) = some descLines)
    (hpref : safeSplitJson (jget jp "preferredExperience" Json.null) = some prefLines)
    (hwelf : safeSplitJson (jget jp "additionalInformation" Json.null) = some welfLines) :
    get_job_detail (FetchResult.success (Json.obj dfs)) = some {
        title := jget jp "title" (Json.str "제목 없음")
        intro := jget jp "description" (Json.str "소개 없음")
        category := if (catElems.map pystr).isEmpty
                    then ["카테고리 없음"] else catElems.map pystr
        comp_name := safe_get (Json.obj jp) ["company", "name"] (Json.str "회사명 없음")
        comp_addr := jget jp "address" (Json.str "주소 없음")
        role := if descLines.isEmpty then ["역할 정보 없음"] else descLines
        requirement := if descLines.isEmpty then ["자격요건 없음"] else descLines
        preferred := if prefLines.isEmpty then ["우대사항 없음"] else prefLines
        due := jget jp "endAt" (Json.str "마감일 미정")
        tech_stack := if tech_stacks.isEmpty
                      then [Json.str "기술 스택 없음"] else tech_stacks
        welfare := if welfLines.isEmpty then ["복지 정보 없음"] else welfLines
        procedure := jget jp "additionalInformation" (Json.str "채용 절차 미정") }
      ∧ (lookupField jp "title" = none →
          (get_job_detail (FetchResult.success (Json.obj dfs))).map JobDetail.title
            = some (Json.str "제목 없음"))
      ∧ (lookupField jp "endAt" = none →
          (get_job_detail (FetchResult.success (Json.obj dfs))).map JobDetail.due
            = some (Json.str "마감일 미정"))
      ∧ (catElems = [] →
          (get_job_detail (FetchResult.success (Json.obj dfs))).map JobDetail.category
            = some ["카테고리 없음"]) := by
  have hmain : get_job_detail (FetchResult.success (Json.obj dfs)) = some {
      title := jget jp "title" (Json.str "제목 없음")
      intro := jget jp "description" (Json.str "소개 없음")
      category := if (catElems.map pystr).isEmpty
                  then ["카테고리 없음"] else catElems.map pystr
      comp_name := safe_get (Json.obj jp) ["company", "name"] (Json.str "회사명 없음")
      comp_addr := jget jp "address" (Json.str "주소 없음")
      role := if descLines.isEmpty then ["역할 정보 없음"] else descLines
      requirement := if descLines.isEmpty then ["자격요건 없음"] else descLines
      preferred := if prefLines.isEmpty then ["우대사항 없음"] else prefLines
      due := jget jp "endAt" (Json.str "마감일 미정")
      tech_stack := if tech_stacks.isEmpty
                    then [Json.str "기술 스택 없음"] else tech_stacks
      welfare := if welfLines.isEmpty then ["복지 정보 없음"] else welfLines
      procedure := jget jp "additionalInformation" (Json.str "채용 절차 미정") } := by
    simp only [get_job_detail, hjp, hcat, htag, htech, hdesc, hpref, hwelf]
  refine ⟨hmain, ?_, ?_, ?_⟩ <;> intro h <;> rw [hmain] <;> simp [jget, h]

/-- C2 witness: an empty job-position object produces the all-fallback
record, with every fallback being the code's Korean literal. -/
theorem job_record_fallbacks_amended_witness :
    get_job_detail (FetchResult.success (Json.obj [("jobPosition", Json.obj [])]))
      = some {
          title := Json.str "제목 없음"
          intro := Json.str "소개 없음"
          category := ["카테고리 없음"]
          comp_name := Json.str "회사명 없음"
          comp_addr := Json.str "주소 없음"
          role := ["역할 정보 없음"]
          requirement := ["자격요건 없음"]
          preferred := ["우대사항 없음"]
          due := Json.str "마감일 미정"
          tech_stack := [Json.str "기술 스택 없음"]
          welfare := ["복지 정보 없음"]
          procedure := Json.str "채용 절차 미정" } :=
  (job_record_fallbacks_amended [("jobPosition", Json.obj [])] [] [] [] [] [] [] []
    rfl rfl rfl rfl rfl rfl rfl).1

/-- A detail response whose description is a single bulleted line. -/
def cexBulletLineBody : Json :=
  Json.obj [("jobPosition", Json.obj [("description", Json.str "• intro line")])]

/-- C4 counterexample: at the claim's own input the record carries the
Korean fallback literals, not `["no preference info"]`/`["no welfare info"]`;
and with an empty description, `role` and `requirement` are two different
fallback singletons, so they are not identical in every record. -/
theorem role_requirement_example_cex :
    (get_job_detail (FetchResult.success cexBulletLineBody)).map
        (fun r => (r.role, r.requirement, r.preferred, r.welfare))
      = some (["intro line"], ["intro line"], ["우대사항 없음"], ["복지 정보 없음"])
      ∧ (["우대사항 없음"] : List String) ≠ ["no preference info"]
      ∧ (get_job_detail (FetchResult.success
            (Json.obj [("jobPosition", Json.obj [("description", Json.str "")])]))).map
          (fun r => (r.role, r.requirement))
        = some (["역할 정보 없음"], ["자격요건 없음"])
      ∧ (["역할 정보 없음"] : List String) ≠ ["자격요건 없음"] := by
  refine ⟨rfl, by decide, rfl, by decide⟩

/-- C4 amended: whenever the description splits into a non-empty line list,
`role` and `requirement` are that same identical split; at the claim's input
the record has `role = requirement = ["intro line"]`, with `preferred` and
`welfare` the Korean fallback singletons. -/
theorem role_requirement_amended :
    (∀ (dfs jp : List (String × Json)) (catElems tagElems tech_stacks : List Json)
       (descLines prefLines welfLines : List String),
       jget dfs "jobPosition" (Json.obj []) = Json.obj jp →
       toIterList (jget jp "jobCategoryIds" (Json.arr [])) = some catElems →
       toIterList (jget jp "technicalTags" (Json.arr [])) = some tagElems →
       omap tagName tagElems = some tech_stacks →
       safeSplitJson (jget jp "description" (Json.str "")) = some descLines →
       safeSplitJson (jget jp "preferredExperience" Json.null) = some prefLines →
       safeSplitJson (jget jp "additionalInformation" Json.null) = some welfLines →
       descLines ≠ [] →
       (get_job_detail (FetchResult.success (Json.obj dfs))).map
           (fun r => (r.role, r.requirement)) = some (descLines, descLines))
      ∧ (get_job_detail (FetchResult.success cexBulletLineBody)).map
          (fun r => (r.role, r.requirement, r.preferred, r.welfare))
        = some (["intro line"], ["intro line"], ["우대사항 없음"], ["복지 정보 없음"]) := by
  constructor
  · intro dfs jp catElems tagElems tech_stacks descLines prefLines welfLines
      hjp hcat htag htech hdesc hpref hwelf hne
    simp only [get_job_detail, hjp, hcat, htag, htech, hdesc, hpref, hwelf]
    simp [list_isEmpty_false hne]
  · rfl

/-- C4 witness: the non-empty split `["intro line"]` is both `role` and
`requirement`. -/
theorem role_requirement_amended_witness :
    (get_job_detail (FetchResult.success cexBulletLineBody)).map
        (fun r => (r.role, r.requirement)) = some (["intro line"], ["intro line"]) := by
  have h := role_requirement_amended.1
    [("jobPosition", Json.obj [("description", Json.str "• intro line")])]
    [("description", Json.str "• intro line")] [] [] [] ["intro line"] [] []
    rfl rfl rfl rfl (by decide) rfl rfl (by decide)
  exact h

/-- A detail response whose additional information is the bare bullet `"•"`:
a non-empty string whose split is empty. -/
def cexBulletOnlyBody : Json :=
  Json.obj [("jobPosition", Json.obj [("additionalInformation", Json.str "•")])]

/-- C10 counterexample: with `additionalInformation = "•"` (a non-empty
string), `procedure` holds `"•"` but `welfare` is the fallback singleton,
not `safe_split` of the procedure text, which is empty. -/
theorem welfare_procedure_cex :
    (get_job_detail (FetchResult.success cexBulletOnlyBody)).map
        (fun r => (r.welfare, r.procedure))
      = some (["복지 정보 없음"], Json.str "•")
      ∧ safe_split (some "•") "\n" = []
      ∧ (["복지 정보 없음"] : List String) ≠ [] := by
  refine ⟨rfl, by decide, by decide⟩

/-- C10 amended: whenever `additionalInformation` is a string whose
`safe_split` is non-empty, the produced record has `welfare` equal to that
split and `procedure` equal to the raw unsplit text, so `welfare =
safe_split(procedure)` holds in exactly that case. -/
theorem welfare_procedure_amended
    (dfs jp : List (String × Json)) (catElems tagElems tech_stacks : List Json)
    (descLines prefLines : List String) (s : String)
    (hjp : jget dfs "jobPosition" (Json.obj []) = Json.obj jp)
    (hcat : toIterList (jget jp "jobCategoryIds" (Json.arr [])) = some catElems)
    (htag : toIterList (jget jp "technicalTags" (Json.arr [])) = some tagElems)
    (htech : omap tagName tagElems = some tech_stacks)
    (hdesc : safeSplitJson (jget jp "description" (Json.str "")) = some descLines)
    (hpref : safeSplitJson (jget jp "preferredExperience" Json.null) = some prefLines)
    (haddinfo : lookupField jp "additionalInformation" = some (Json.str s))
    (hsplit : safe_split (some s) "\n" ≠ []) :
    (get_job_detail (FetchResult.success (Json.obj dfs))).map
        (fun r => (r.welfare, r.procedure))
      = some (safe_split (some s) "\n", Json.str s) := by
  have hs : s ≠ "" := by
    intro h
    subst h
    exact hsplit rfl
  have hwelf : safeSplitJson (jget jp "additionalInformation" Json.null)
      = some (safe_split (some s) "\n") := by
    simp [jget, haddinfo, safeSplitJson, truthy, hs]
  simp only [get_job_detail, hjp, hcat, htag, htech, hdesc, hpref, hwelf]
  simp [list_isEmpty_false hsplit, jget, haddinfo]

/-- C10 witness: a plain one-line additional-information text. -/
theorem welfare_procedure_amended_witness :
    (get_job_detail (FetchResult.success
        (Json.obj [("jobPosition",
          Json.obj [("additionalInformation", Json.str "health insurance")])]))).map
        (fun r => (r.welfare, r.procedure))
      = some (["health insurance"], Json.str "health insurance") := by
  have h := welfare_procedure_amended
    [("jobPosition", Json.obj [("additionalInformation", Json.str "health insurance")])]
    [("additionalInformation", Json.str "health insurance")] [] [] [] [] []
    "health insurance" rfl rfl rfl rfl rfl rfl rfl (by decide)
  exact h
